import Mathlib

/-!
Verification of the event-recommendation core of the GCventease backend
(`app/services/recommendation_service.py` and the profile-building /
fallback logic of `app/api/v1/endpoints/analytics.py`).

Embedding conventions:
* Python floats are idealised as `ℚ`; all arithmetic the scoring engine
  performs (sums of small literals, halving, division of participant
  counts) is exact in `ℚ`.
* A Python `datetime`/date string is embedded by the only quantity the
  code extracts from it: the signed number of days between the event date
  and today's date.  A missing, empty or unparseable date (every branch
  whose `try`/`except` or truthiness test suppresses the date) is `none`.
* The external sklearn call `TfidfVectorizer.fit_transform` followed by
  `cosine_similarity` is embedded as an oracle parameter
  `sim : String → String → Option ℚ`: `some s` means the call returned
  cosine similarity `s`, `none` means it raised (the `except` branch).
* Python's stable `list.sort(key=..., reverse=True)` is embedded by the
  stable descending insertion sort `sortD`, which is proved below to be
  a descending-sorted permutation preserving the relative order of
  equal-keyed elements — the characterising properties of Python's sort.
-/

namespace GCventease

/-- Check that `n` occurs as the leading run of `h` (character lists). -/
def charsLeading : List Char → List Char → Bool
  | [], _ => true
  | _ :: _, [] => false
  | a :: as, b :: bs => a == b && charsLeading as bs

/-- Check that `n` occurs contiguously somewhere inside `h`. -/
def charsSub (n : List Char) : List Char → Bool
  | [] => n.isEmpty
  | b :: bs => charsLeading n (b :: bs) || charsSub n bs

/-- Python's substring test `n in h` on strings. -/
def pyIn (n h : String) : Bool := charsSub n.data h.data

/-- Lowercasing as Python's `str.lower()` does (structural, per character). -/
def pyLower (s : String) : String := String.mk (s.data.map Char.toLower)

/-- Cut a character list at whitespace characters. -/
def splitWs : List Char → List (List Char)
  | [] => [[]]
  | c :: cs =>
    match splitWs cs with
    | [] => [[]]
    | w :: ws => if c.isWhitespace then [] :: w :: ws else (c :: w) :: ws

/-- Python's `str.split()`: split on whitespace runs, dropping empty pieces. -/
def pySplit (s : String) : List String :=
  ((splitWs s.data).map String.mk).filter (fun w => w ≠ "")

/-- Python's `' '.join(parts)`. -/
def joinSp : List String → String
  | [] => ""
  | [s] => s
  | s :: rest => s ++ " " ++ joinSp rest

/-- Python's `', '.join(parts)`. -/
def joinComma : List String → String
  | [] => ""
  | [s] => s
  | s :: rest => s ++ ", " ++ joinComma rest

/-- Python's slice `l[:n]` for an `int` bound `n`:
a non-negative bound takes the first `n` elements, a negative bound drops
the last `-n` elements. -/
def pyTake (n : Int) (l : List α) : List α :=
  if 0 ≤ n then l.take n.toNat else l.take ((l.length : Int) + n).toNat

/-- Python's `int()` truncation toward zero on an (idealised) float. -/
def pyInt (q : ℚ) : Int :=
  if 0 ≤ q then ((q.num.toNat / q.den : Nat) : Int)
  else -(((-q.num).toNat / q.den : Nat) : Int)

/-- Round-half-to-even on an exact rational, as Python's `round` does. -/
def rhe (q : ℚ) : Int :=
  if q - ⌊q⌋ < 1/2 then ⌊q⌋
  else if 1/2 < q - ⌊q⌋ then ⌊q⌋ + 1
  else if ⌊q⌋ % 2 = 0 then ⌊q⌋ else ⌊q⌋ + 1

/-- Python's `round(x, 2)` on an (idealised) float. -/
def pyRound2 (q : ℚ) : ℚ := (rhe (q * 100) : ℚ) / 100

/-! ### Data model -/

/-- One entry of `participation_history` as built by `build_user_profile`. -/
structure HistoryItem where
  title : String
  category : String
  tags : List String
deriving DecidableEq

/-- The profile dict produced by `build_user_profile`. -/
structure UserProfile where
  favorite_categories : List String
  favorite_tags : List String
  participation_history : List HistoryItem
  events_created : Nat
  events_attended : Nat
  has_initial_preferences : Bool
deriving DecidableEq

/-- A candidate event row as consumed by the recommendation service.
`date` is the embedded day offset (see the header comment); ids are
strings (uuids). -/
structure CandidateEvent where
  id : String
  title : String
  description : String
  category : String
  tags : List String
  date : Option Int
  current_participants : Nat
  max_participants : Nat
deriving DecidableEq

/-- One recommendation dict as produced by `get_recommendations`. -/
structure ScoredRecommendation where
  eventId : String
  title : String
  reason : String
  confidence : Int
  score : ℚ
  matchFactors : List String
deriving DecidableEq

/-! ### Similarity scoring (`calculate_similarity_score`) -/

/-- Component 1 of `calculate_similarity_score`: category match, 0-30. -/
def category_score (user_categories : List String) (eventCategoryRaw : String) : ℚ :=
  let event_category := (pyLower eventCategoryRaw)
  if (user_categories.map pyLower).contains event_category then 30
  else if user_categories.any
      (fun cat => pyIn (pyLower cat) event_category || pyIn event_category (pyLower cat)) then 15
  else 0

/-- Component 2 of `calculate_similarity_score`: tag match, 0-20. -/
def tag_score (user_tags eventTagsRaw : List String) : ℚ :=
  let event_tags := eventTagsRaw.map pyLower
  if event_tags ≠ [] then
    let matching_tags := (user_tags.filter
      (fun tag => event_tags.contains (pyLower tag)
        || event_tags.any (fun et => pyIn (pyLower tag) et))).length
    if 0 < matching_tags then min 20 ((matching_tags : ℚ) * 5) else 0
  else 0

/-- Text blob built from the user profile (`_build_user_text`). -/
def build_user_text (p : UserProfile) : String :=
  let parts :=
    p.favorite_categories.map pyLower
    ++ p.favorite_tags.map pyLower
    ++ p.participation_history.flatMap
        (fun item => [(pyLower item.title), (pyLower item.category)] ++ item.tags.map pyLower)
  joinSp parts

/-- Text blob built from the event (`_build_event_text`). -/
def build_event_text (e : CandidateEvent) : String :=
  joinSp ([(pyLower e.title), (pyLower e.description), (pyLower e.category)]
    ++ e.tags.map pyLower)

/-- The `except` branch of the text-similarity component: Jaccard-style
word overlap `(shared words / user words) * 25`. -/
def text_fallback_score (user_text event_text : String) : ℚ :=
  let user_words := (pySplit (pyLower user_text)).dedup
  let event_words := (pySplit (pyLower event_text)).dedup
  if user_words ≠ [] then
    (((user_words.filter (fun w => event_words.contains w)).length : ℚ) / user_words.length) * 25
  else 0

/-- Component 3 of `calculate_similarity_score`: text similarity, 0-25,
with the word-overlap fallback when vectorization raises. -/
def text_score (sim : String → String → Option ℚ) (user_text event_text : String) : ℚ :=
  if user_text ≠ "" ∧ event_text ≠ "" then
    match sim user_text event_text with
    | some s => s * 25
    | none => text_fallback_score user_text event_text
  else 0

/-- Component 4 of `calculate_similarity_score`: date proximity, 0-15. -/
def date_score (d : Option Int) : ℚ :=
  match d with
  | none => 0
  | some days_away =>
    if 0 ≤ days_away ∧ days_away ≤ 30 then max 0 (15 - (days_away : ℚ) / 2) else 0

/-- Component 5 of `calculate_similarity_score`: popularity bonus, 0-10.
The code reads `event.get('max_participants', 1) or 1`, so a capacity of
0 is replaced by 1 before dividing. -/
def popRatio (current_participants max_participantsRaw : Nat) : ℚ :=
  (current_participants : ℚ) / ((if max_participantsRaw = 0 then 1 else max_participantsRaw : Nat) : ℚ)

/-- Component 5 continued: the banded bonus computed from the ratio. -/
def popularity_score (current_participants max_participantsRaw : Nat) : ℚ :=
  if 3/10 ≤ popRatio current_participants max_participantsRaw
      ∧ popRatio current_participants max_participantsRaw ≤ 9/10 then 10
  else if 1/10 ≤ popRatio current_participants max_participantsRaw
      ∧ popRatio current_participants max_participantsRaw < 3/10 then 5
  else 0

/-- `RecommendationService.calculate_similarity_score`: the sum of the five
components, clamped to [0, 100]. -/
def calculate_similarity_score (sim : String → String → Option ℚ)
    (p : UserProfile) (e : CandidateEvent) : ℚ :=
  min 100 (max 0
    (category_score p.favorite_categories e.category
      + tag_score p.favorite_tags e.tags
      + text_score sim (build_user_text p) (build_event_text e)
      + date_score e.date
      + popularity_score e.current_participants e.max_participants))

/-! ### Stable descending sort (Python's `sort(key=..., reverse=True)`) -/

/-- Insert `x` into `l` before the first element whose key is at most
`key x`.  Used right-to-left over the input, this keeps an element that
occurs earlier in the input ahead of later elements with an equal key. -/
def insD [LinearOrder β] (key : α → β) (x : α) : List α → List α
  | [] => [x]
  | y :: ys => if key y ≤ key x then x :: y :: ys else y :: insD key x ys

/-- Stable descending sort by `key`, the embedding of Python's stable
`sort(key=..., reverse=True)`. -/
def sortD [LinearOrder β] (key : α → β) (l : List α) : List α :=
  l.foldr (insD key) []

/-! ### Ranking engine (`get_recommendations`) -/

/-- The cold-start base score computed inside `get_recommendations` when
the profile has no categories, no tags and no history. -/
def cold_start_score (e : CandidateEvent) : ℚ :=
  40
  + (if 3/10 ≤ popRatio e.current_participants e.max_participants
        ∧ popRatio e.current_participants e.max_participants ≤ 9/10 then 20
     else if 1/10 ≤ popRatio e.current_participants e.max_participants
        ∧ popRatio e.current_participants e.max_participants < 3/10 then 10
     else 0)
  + (match e.date with
     | some days_until => if 0 ≤ days_until ∧ days_until ≤ 30 then 10 else 0
     | none => 0)

/-- The Python truthiness test
`not favorite_categories and not favorite_tags and not participation_history`. -/
def isColdStart (p : UserProfile) : Prop :=
  p.favorite_categories = [] ∧ p.favorite_tags = [] ∧ p.participation_history = []

instance (p : UserProfile) : Decidable (isColdStart p) := by
  unfold isColdStart; infer_instance

/-- The score `get_recommendations` actually attaches to an event: the
five-component similarity score, overridden by the cold-start base score
for a profile with no signal. -/
def adjusted_score (sim : String → String → Option ℚ)
    (p : UserProfile) (e : CandidateEvent) : ℚ :=
  if isColdStart p then cold_start_score e else calculate_similarity_score sim p e

/-- One element of the `scored_events` list:
`{'event': e, 'score': s, 'confidence': min(10, max(1, int(s / 10)))}`. -/
def score_entry (sim : String → String → Option ℚ)
    (p : UserProfile) (e : CandidateEvent) : CandidateEvent × ℚ × Int :=
  let score := adjusted_score sim p e
  (e, score, min 10 (max 1 (pyInt (score / 10))))

/-- `RecommendationService._get_match_factors`. -/
def get_match_factors (p : UserProfile) (e : CandidateEvent) : List String :=
  let catFactors :=
    if (p.favorite_categories.map pyLower).contains (pyLower e.category) then
      ["Matches your interest in " ++ e.category]
    else []
  let event_tags := e.tags.map pyLower
  let matching_tags := p.favorite_tags.filter
    (fun tag => event_tags.contains (pyLower tag) || event_tags.any (fun et => pyIn (pyLower tag) et))
  let tagFactors :=
    if matching_tags ≠ [] then
      ["Matches your tags: " ++ joinComma (matching_tags.take 2)]
    else []
  let dateFactors :=
    match e.date with
    | some days_away =>
      if 0 ≤ days_away ∧ days_away ≤ 7 then ["Happening soon"]
      else if 8 ≤ days_away ∧ days_away ≤ 30 then ["Upcoming event"]
      else []
    | none => []
  let factors := catFactors ++ tagFactors ++ dateFactors
  if factors ≠ [] then factors else ["Based on your preferences"]

/-- `RecommendationService._generate_reason`. -/
def generate_reason (score : ℚ) (match_factors : List String) : String :=
  let base :=
    if 70 ≤ score then "Highly recommended"
    else if 50 ≤ score then "Good match"
    else if 30 ≤ score then "May interest you"
    else "Based on your activity"
  match match_factors with
  | f :: _ => base ++ ": " ++ f
  | [] => base ++ " based on your event preferences and history"

/-- Formatting of one sorted `scored_events` entry into the returned
recommendation dict. -/
def format_rec (p : UserProfile) (x : CandidateEvent × ℚ × Int) : ScoredRecommendation :=
  let match_factors := get_match_factors p x.1
  { eventId := x.1.id
    title := x.1.title
    reason := generate_reason x.2.1 match_factors
    confidence := x.2.2
    score := pyRound2 x.2.1
    matchFactors := match_factors }

/-- `RecommendationService.get_recommendations`. -/
def get_recommendations (sim : String → String → Option ℚ)
    (p : UserProfile) (available_events : List CandidateEvent) (top_n : Int) :
    List ScoredRecommendation :=
  if available_events = [] then []
  else
    (pyTake top_n (sortD (fun x => x.2.1) (available_events.map (score_entry sim p)))).map
      (format_rec p)

/-! ### Endpoint post-processing (`get_personalized_recommendations`) -/

/-- A recommendation as returned by the analytics endpoint: either a
dict produced by the service, or a synthesized fallback dict (which has
an `event` key instead of `eventId`/`title`). -/
inductive EndpointRec where
  | scored (r : ScoredRecommendation)
  | fallback (event : CandidateEvent) (score : ℚ) (confidence : Int)
      (reason : String) (matchFactors : List String)
deriving DecidableEq

/-- The fallback sort key
`(current_participants, -(days until event if date else 999))`, compared
as Python compares tuples (lexicographically). -/
def fallback_key (e : CandidateEvent) : Lex (Int × Int) :=
  toLex ((e.current_participants : Int),
    -(match e.date with | some d => d | none => 999))

/-- The recommendation-assembly part of the analytics endpoint
`get_personalized_recommendations`: call the service, and if it returned
an empty list while events exist, substitute the popularity-sorted
fallback list. -/
def get_personalized_recommendations (sim : String → String → Option ℚ)
    (p : UserProfile) (available_events : List CandidateEvent) (top_n : Int) :
    List EndpointRec :=
  let recommendations := get_recommendations sim p available_events top_n
  if recommendations = [] ∧ available_events ≠ [] then
    let sorted_events := sortD fallback_key available_events
    (pyTake top_n sorted_events).map
      (fun e => .fallback e 50 5 "Popular upcoming event - check it out!"
        ["Popular event", "Upcoming soon"])
  else recommendations.map .scored

/-! ### Profile builder (`build_user_profile` in analytics.py) -/

/-- An event row as seen by the profile builder (`title, category, tags`);
`category` may be SQL NULL. -/
structure RawEvent where
  title : String
  category : Option String
  tags : List String
deriving DecidableEq

/-- One row of the `participants` table (`event_id, status`);
`event_id` may be NULL. -/
structure Participation where
  event_id : Option String
  status : String
deriving DecidableEq

/-- Python dict insertion-order update `d[k] = d.get(k, 0) + w` on an
association list: an existing key keeps its position, a new key is
appended. -/
def bump : List (String × Nat) → String → Nat → List (String × Nat)
  | [], k, w => [(k, w)]
  | kv :: rest, k, w => if kv.1 = k then (kv.1, kv.2 + w) :: rest else kv :: bump rest k w

/-- `d.get(k, 0)` on the weight map. -/
def weightOf : List (String × Nat) → String → Nat
  | [], _ => 0
  | kv :: rest, c => if kv.1 = c then kv.2 else weightOf rest c

/-- The seeding loop `for x in labels: if x: d[x] = d.get(x, 0) + w`
(Python truthiness skips empty labels). -/
def seedWeights (d : List (String × Nat)) (labels : List String) (w : Nat) :
    List (String × Nat) :=
  labels.foldl (fun d l => if l ≠ "" then bump d l w else d) d

/-- One step of the created-events loop on the category map:
`category = event.get('category'); if category: categories[category] += 2`. -/
def addEventCat (d : List (String × Nat)) (ev : RawEvent) : List (String × Nat) :=
  match ev.category with
  | some c => if c ≠ "" then bump d c 2 else d
  | none => d

/-- The created-events loop over the category map. -/
def catPhase (d : List (String × Nat)) (evs : List RawEvent) : List (String × Nat) :=
  evs.foldl addEventCat d

/-- The created-events loop over the tag map (weight 2 per tag occurrence). -/
def tagPhase (d : List (String × Nat)) (evs : List RawEvent) : List (String × Nat) :=
  evs.foldl (fun d ev => seedWeights d ev.tags 2) d

/-- Lookup in the `participation_events` dict, keyed by event id. -/
def lookupEvent (tbl : List (String × RawEvent)) (id : String) : Option RawEvent :=
  (tbl.find? (fun kv => kv.1 == id)).map (fun kv => kv.2)

/-- The participations that resolve:
`if event_id and event_id in participation_events`, in order. -/
def resolvedParts (participations : List Participation)
    (tbl : List (String × RawEvent)) : List RawEvent :=
  participations.filterMap (fun part =>
    match part.event_id with
    | some id => if id ≠ "" then lookupEvent tbl id else none
    | none => none)

/-- `build_user_profile` (analytics.py): accumulate weights from signup
preferences (weight 1), created events (weight 2) and resolved
participations (weight 2); rank categories (top 3) and tags (top 5) by
weight descending via the stable sort; fall back to signup preferences
verbatim when the user has no events and no participations. -/
def build_user_profile (initial_categories initial_tags : List String)
    (user_events : List RawEvent) (participations : List Participation)
    (event_table : List (String × RawEvent)) : UserProfile :=
  let resolved := resolvedParts participations event_table
  let categories := catPhase (catPhase (seedWeights [] initial_categories 1) user_events) resolved
  let tags := tagPhase (tagPhase (seedWeights [] initial_tags 1) user_events) resolved
  let participation_history := resolved.map (fun ev =>
    { title := ev.title, category := ev.category.getD "", tags := ev.tags : HistoryItem })
  let rankedCats := ((sortD (fun kv => kv.2) categories).take 3).map Prod.fst
  let favCats0 := if rankedCats ≠ [] then rankedCats else initial_categories.take 3
  let rankedTags := ((sortD (fun kv => kv.2) tags).take 5).map Prod.fst
  let favTags0 := if rankedTags ≠ [] then rankedTags else initial_tags.take 5
  let noHistory := user_events.length = 0 ∧ participations.length = 0
  let favorite_categories :=
    if noHistory then (if initial_categories ≠ [] then initial_categories.take 3 else [])
    else favCats0
  let favorite_tags :=
    if noHistory then (if initial_tags ≠ [] then initial_tags.take 5 else [])
    else favTags0
  { favorite_categories := favorite_categories
    favorite_tags := favorite_tags
    participation_history := participation_history
    events_created := user_events.length
    events_attended := (participations.filter (fun part => part.status = "attended")).length
    has_initial_preferences := initial_categories ≠ [] ∨ initial_tags ≠ [] }

/-! ### Vectorizer state threading (for the idempotence claim) -/

/-- Modelled from the spec and the sklearn contract the source relies on:
`TfidfVectorizer.fit_transform` refits the vectorizer's vocabulary from
exactly the documents it is given, discarding whatever vocabulary a
previous call left behind, and the similarity computed from its output
is a function of those documents alone.  The state is the fitted
vocabulary; the oracle `sim` supplies the similarity value (`none` for a
raised exception). -/
def fit_transform_sim (sim : String → String → Option ℚ)
    (_prevVocab : List String) (user_text event_text : String) :
    List String × Option ℚ :=
  ((pySplit user_text ++ pySplit event_text).dedup, sim user_text event_text)

/-- `calculate_similarity_score` with the vectorizer state threaded
explicitly through the `fit_transform` call, returning the score and the
vectorizer state left behind for the next call. -/
def calc_with_state (sim : String → String → Option ℚ) (vocab : List String)
    (p : UserProfile) (e : CandidateEvent) : ℚ × List String :=
  let user_text := build_user_text p
  let event_text := build_event_text e
  let textPart : ℚ × List String :=
    if user_text ≠ "" ∧ event_text ≠ "" then
      let r := fit_transform_sim sim vocab user_text event_text
      match r.2 with
      | some s => (s * 25, r.1)
      | none => (text_fallback_score user_text event_text, r.1)
    else (0, vocab)
  (min 100 (max 0
    (category_score p.favorite_categories e.category
      + tag_score p.favorite_tags e.tags
      + textPart.1
      + date_score e.date
      + popularity_score e.current_participants e.max_participants)), textPart.2)

/-! ### Spec-side formulations (for refinement-style claims) -/

/-- The cold-start formula as the specification words it: base 40, plus 20
for a popularity ratio `current / max(max_participants, 1)` in [0.3, 0.9]
or 10 for a ratio in [0.1, 0.3), plus 10 when the event date is 0 to 30
days in the future.  Written independently of the code's branch structure,
to be compared against `cold_start_score`. -/
def spec_cold_score (e : CandidateEvent) : ℚ :=
  40
  + (if 3/10 ≤ (e.current_participants : ℚ) / ((max e.max_participants 1 : Nat) : ℚ)
        ∧ (e.current_participants : ℚ) / ((max e.max_participants 1 : Nat) : ℚ) ≤ 9/10 then 20
     else if 1/10 ≤ (e.current_participants : ℚ) / ((max e.max_participants 1 : Nat) : ℚ)
        ∧ (e.current_participants : ℚ) / ((max e.max_participants 1 : Nat) : ℚ) < 3/10 then 10
     else 0)
  + (match e.date with
     | some d => if 0 ≤ d ∧ d ≤ 30 then 10 else 0
     | none => 0)

/-- Projection of an endpoint recommendation to (came-from-fallback?,
score), used to state facts about the endpoint output without reference to
the generated explanation strings. -/
def endpointProj : EndpointRec → Bool × ℚ
  | .scored r => (false, r.score)
  | .fallback _ score _ _ _ => (true, score)

/-! ### Concrete fixtures for witnesses and counterexamples -/

/-- Oracle where vectorization always raises (degenerate input). -/
def simNone : String → String → Option ℚ := fun _ _ => none

/-- Oracle where vectorization always returns cosine similarity 0. -/
def simZero : String → String → Option ℚ := fun _ _ => some 0

/-- A profile with no signal at all (cold start). -/
def profEmpty : UserProfile :=
  { favorite_categories := [], favorite_tags := [], participation_history := []
    events_created := 0, events_attended := 0, has_initial_preferences := false }

/-- A profile whose only signal is the favorite category `music`. -/
def profMusic : UserProfile :=
  { favorite_categories := ["music"], favorite_tags := [], participation_history := []
    events_created := 0, events_attended := 0, has_initial_preferences := true }

/-- A profile whose only signal is the favorite category `mu`. -/
def profMu : UserProfile :=
  { favorite_categories := ["mu"], favorite_tags := [], participation_history := []
    events_created := 0, events_attended := 0, has_initial_preferences := true }

/-- An event carrying no information: no text, no date, no capacity. -/
def evBlank : CandidateEvent :=
  { id := "e0", title := "", description := "", category := "", tags := []
    date := none, current_participants := 0, max_participants := 0 }

/-- A `music`-category event with no date and 0 of 10 seats taken. -/
def evMusic : CandidateEvent :=
  { id := "e1", title := "", description := "", category := "music", tags := []
    date := none, current_participants := 0, max_participants := 10 }

/-- A `tech`-category event 40 days in the future with 0 of 10 seats
taken, parameterised by its id. -/
def evTech (i : String) : CandidateEvent :=
  { id := i, title := "", description := "", category := "tech", tags := []
    date := some 40, current_participants := 0, max_participants := 10 }

/-- The recommendation `get_recommendations` produces for `evBlank` under
`profEmpty` (used to instantiate membership hypotheses in witnesses). -/
def recBlank : ScoredRecommendation :=
  { eventId := "e0", title := ""
    reason := "May interest you: Based on your preferences"
    confidence := 4, score := 40
    matchFactors := ["Based on your preferences"] }

/-! ### Helper lemmas: the substring test -/

theorem pyIn_empty (s : String) : pyIn "" s = true := by
  show charsSub [] s.data = true
  cases s.data with
  | nil => rfl
  | cons b bs => rfl

/-! ### Helper lemmas: rounding and truncation -/

theorem rhe_intCast (n : ℤ) : rhe (n : ℚ) = n := by
  unfold rhe
  norm_num

theorem rhe_floor_le (q : ℚ) : ⌊q⌋ ≤ rhe q := by
  unfold rhe
  split_ifs <;> omega

theorem rhe_le_floor_add_one (q : ℚ) : rhe q ≤ ⌊q⌋ + 1 := by
  unfold rhe
  split_ifs <;> omega

theorem le_rhe_of_intCast_le {n : ℤ} {q : ℚ} (h : (n : ℚ) ≤ q) : n ≤ rhe q :=
  le_trans (Int.le_floor.mpr h) (rhe_floor_le q)

theorem rhe_le_of_le_intCast {n : ℤ} {q : ℚ} (h : q ≤ (n : ℚ)) : rhe q ≤ n := by
  have hf : ⌊q⌋ ≤ n := by simpa using Int.floor_le_floor h
  rcases lt_or_eq_of_le hf with hlt | heq
  · exact le_trans (rhe_le_floor_add_one q) (by omega)
  · have hq : q = (n : ℚ) := le_antisymm h (by rw [← heq]; exact Int.floor_le q)
    rw [hq, rhe_intCast]

theorem lt_of_rhe_le {n : ℤ} {q : ℚ} (h : rhe q ≤ n) : q < (n : ℚ) + 1 := by
  have h1 : ⌊q⌋ ≤ n := le_trans (rhe_floor_le q) h
  have h2 : q < ⌊q⌋ + 1 := Int.lt_floor_add_one q
  have : (⌊q⌋ : ℚ) ≤ (n : ℚ) := by exact_mod_cast h1
  linarith

theorem rhe_mono {q r : ℚ} (h : q ≤ r) : rhe q ≤ rhe r := by
  rcases lt_or_eq_of_le (Int.floor_le_floor h) with hlt | heq
  · exact le_trans (rhe_le_floor_add_one q) (le_trans (by omega) (rhe_floor_le r))
  · unfold rhe
    rw [← heq]
    have h2 : q - ⌊q⌋ ≤ r - ⌊q⌋ := by linarith
    split_ifs <;> first | omega | linarith

theorem pyRound2_intCast (n : ℤ) : pyRound2 (n : ℚ) = n := by
  unfold pyRound2
  have : ((n : ℚ) * 100) = ((n * 100 : ℤ) : ℚ) := by push_cast; ring
  rw [this, rhe_intCast]
  push_cast
  ring

theorem pyRound2_mono {q r : ℚ} (h : q ≤ r) : pyRound2 q ≤ pyRound2 r := by
  unfold pyRound2
  have := rhe_mono (q := q * 100) (r := r * 100) (by linarith)
  have hc : ((rhe (q * 100) : ℚ)) ≤ (rhe (r * 100) : ℚ) := by exact_mod_cast this
  linarith

theorem pyRound2_nonneg {q : ℚ} (h : 0 ≤ q) : 0 ≤ pyRound2 q := by
  have hm := pyRound2_mono h
  have h0 : pyRound2 0 = 0 := by simpa using pyRound2_intCast 0
  linarith [hm, h0.ge, h0.le]

theorem pyRound2_le_100 {q : ℚ} (h : q ≤ 100) : pyRound2 q ≤ 100 := by
  have := pyRound2_mono h
  have h100 : pyRound2 ((100 : ℤ) : ℚ) = ((100 : ℤ) : ℚ) := pyRound2_intCast 100
  push_cast at h100
  rwa [h100] at this

theorem lt_of_pyRound2_le {n : ℤ} {q : ℚ} (h : pyRound2 q ≤ (n : ℚ)) : q < n + 1/100 := by
  unfold pyRound2 at h
  have h1 : ((rhe (q * 100) : ℚ)) ≤ (n : ℚ) * 100 := by linarith
  have h2 : rhe (q * 100) ≤ n * 100 := by exact_mod_cast h1
  have h3 : q * 100 < ((n * 100 : ℤ) : ℚ) + 1 := lt_of_rhe_le h2
  push_cast at h3
  linarith

theorem pyInt_eq_zero {q : ℚ} (h0 : 0 ≤ q) (h1 : q < 1) : pyInt q = 0 := by
  unfold pyInt
  rw [if_pos h0]
  have hnum : q.num < q.den := by
    rwa [Rat.lt_one_iff_num_lt_denom] at h1
  have : q.num.toNat < q.den := by
    have := Rat.num_nonneg.mpr h0
    omega
  simp [Nat.div_eq_of_lt this]

/-! ### Helper lemmas: the stable descending sort -/

section SortLemmas

variable {α : Type} {β : Type} [LinearOrder β] (key : α → β)

theorem insD_perm (x : α) (l : List α) : List.Perm (insD key x l) (x :: l) := by
  induction l with
  | nil => rfl
  | cons y ys ih =>
    unfold insD
    split_ifs
    · rfl
    · exact ((ih).cons y).trans (List.Perm.swap x y ys)

theorem sortD_perm (l : List α) : List.Perm (sortD key l) l := by
  induction l with
  | nil => rfl
  | cons x xs ih => exact (insD_perm key x (sortD key xs)).trans (ih.cons x)

theorem sortD_length (l : List α) : (sortD key l).length = l.length :=
  (sortD_perm key l).length_eq

theorem insD_pairwise {x : α} {l : List α}
    (h : l.Pairwise (fun a b => key b ≤ key a)) :
    (insD key x l).Pairwise (fun a b => key b ≤ key a) := by
  induction l with
  | nil => simp [insD]
  | cons y ys ih =>
    rw [List.pairwise_cons] at h
    unfold insD
    split_ifs with hc
    · refine List.Pairwise.cons ?_ (List.Pairwise.cons h.1 h.2)
      intro b hb
      rcases List.mem_cons.mp hb with rfl | hb
      · exact hc
      · exact le_trans (h.1 b hb) hc
    · refine List.Pairwise.cons ?_ (ih h.2)
      intro b hb
      rcases List.mem_cons.mp ((insD_perm key x ys).mem_iff.mp hb) with rfl | hb2
      · exact le_of_not_le hc
      · exact h.1 b hb2

theorem sortD_pairwise (l : List α) :
    (sortD key l).Pairwise (fun a b => key b ≤ key a) := by
  induction l with
  | nil => simp [sortD]
  | cons x xs ih => exact insD_pairwise key ih

theorem insD_filter_key (x : α) (l : List α) (q : β) :
    (insD key x l).filter (fun a => key a = q)
      = if key x = q then x :: l.filter (fun a => key a = q)
        else l.filter (fun a => key a = q) := by
  induction l with
  | nil => by_cases h : key x = q <;> simp [insD, List.filter, h]
  | cons y ys ih =>
    unfold insD
    split_ifs with hc hx hx
    · simp [List.filter, hx]
    · simp [List.filter, hx]
    · by_cases hy : key y = q
      · exact absurd (le_of_eq (hy.trans hx.symm)) hc
      · simp only [List.filter_cons]
        rw [if_neg (by simpa using hy), if_neg (by simpa using hy)]
        rw [ih, if_pos hx]
    · by_cases hy : key y = q
      · simp only [List.filter_cons]
        rw [if_pos (by simpa using hy), if_pos (by simpa using hy)]
        rw [ih, if_neg hx]
      · simp only [List.filter_cons]
        rw [if_neg (by simpa using hy), if_neg (by simpa using hy)]
        rw [ih, if_neg hx]

theorem sortD_filter_key (l : List α) (q : β) :
    (sortD key l).filter (fun a => key a = q) = l.filter (fun a => key a = q) := by
  induction l with
  | nil => rfl
  | cons x xs ih =>
    show (insD key x (sortD key xs)).filter _ = _
    rw [insD_filter_key, ih]
    by_cases hx : key x = q
    · rw [if_pos hx]
      simp [List.filter_cons, hx]
    · rw [if_neg hx]
      simp [List.filter_cons, hx]

end SortLemmas

/-! ### Helper lemmas: list slicing -/

theorem pyTake_subset (n : Int) (l : List α) : ∀ x ∈ pyTake n l, x ∈ l := by
  unfold pyTake
  split_ifs <;> exact fun x hx => List.take_subset _ _ hx

theorem pyTake_length_nonneg {n : Int} (hn : 0 ≤ n) (l : List α) :
    (pyTake n l).length = min n.toNat l.length := by
  unfold pyTake
  rw [if_pos hn, List.length_take]

theorem pyTake_sublist (n : Int) (l : List α) : (pyTake n l).Sublist l := by
  unfold pyTake
  split_ifs <;> exact List.take_sublist _ _

theorem pyTake_ne_nil {n : Int} (hn : 1 ≤ n) {l : List α} (hl : l ≠ []) :
    pyTake n l ≠ [] := by
  unfold pyTake
  rw [if_pos (by omega : (0:Int) ≤ n)]
  intro h
  rw [List.take_eq_nil_iff] at h
  rcases h with h | h
  · omega
  · exact hl h

/-! ### Helper lemmas: the weight map -/

theorem weightOf_bump (d : List (String × Nat)) (k c : String) (w : Nat) :
    weightOf (bump d k w) c = if c = k then weightOf d c + w else weightOf d c := by
  induction d with
  | nil =>
    by_cases h : c = k
    · subst h; simp [bump, weightOf]
    · simp [bump, weightOf, h, Ne.symm h]
  | cons kv rest ih =>
    unfold bump
    by_cases hk : kv.1 = k
    · rw [if_pos hk]
      by_cases hc : c = k
      · have h1 : kv.1 = c := by rw [hk, hc]
        simp [weightOf, h1, hc]
      · have h1 : kv.1 ≠ c := fun h => hc (by rw [← h, hk])
        simp [weightOf, h1, hc]
    · rw [if_neg hk]
      by_cases hkvc : kv.1 = c
      · have hck : ¬ c = k := fun h => hk (by rw [hkvc, h])
        simp [weightOf, hkvc, hck]
      · simp [weightOf, hkvc, ih]

theorem weightOf_seedWeights (d : List (String × Nat)) (ls : List String)
    (w : Nat) (c : String) (hc : c ≠ "") :
    weightOf (seedWeights d ls w) c = weightOf d c + w * ls.count c := by
  induction ls generalizing d with
  | nil => simp [seedWeights]
  | cons l ls ih =>
    show weightOf (seedWeights (if l ≠ "" then bump d l w else d) ls w) c = _
    rw [ih]
    by_cases hcl : c = l
    · subst hcl
      rw [if_pos hc, weightOf_bump, if_pos rfl]
      simp [List.count_cons]
      ring
    · have hcnt : (l :: ls).count c = ls.count c := by
        rw [List.count_cons]
        have h2 : ¬ l = c := fun h => hcl h.symm
        simp [hcl, h2]
      rw [hcnt]
      by_cases hl : l = ""
      · rw [if_neg (not_not_intro hl)]
      · rw [if_pos hl, weightOf_bump, if_neg hcl]

theorem weightOf_catPhase (d : List (String × Nat)) (evs : List RawEvent)
    (c : String) (hc : c ≠ "") :
    weightOf (catPhase d evs) c
      = weightOf d c + 2 * (evs.filter (fun ev => ev.category = some c)).length := by
  induction evs generalizing d with
  | nil => simp [catPhase]
  | cons ev evs ih =>
    show weightOf (catPhase (addEventCat d ev) evs) c = _
    rw [ih]
    have hstep : weightOf (addEventCat d ev) c
        = weightOf d c + (if ev.category = some c then 2 else 0) := by
      rcases hcat : ev.category with _ | cat
      · simp [addEventCat, hcat]
      · by_cases hne : cat = ""
        · subst hne
          have h1 : ¬ (ev.category = some c) := by
            rw [hcat]
            intro h
            exact hc (by injection h with h2; exact h2.symm)
          simp [addEventCat, hcat, h1, Ne.symm hc]
        · simp only [addEventCat, hcat, if_pos hne, weightOf_bump]
          by_cases hcc : c = cat
          · subst hcc
            simp [hcat]
          · have h1 : ¬ (ev.category = some c) := by
              rw [hcat]
              intro h
              exact hcc (by injection h with h2; exact h2.symm)
            simp [hcc, h1, Ne.symm hcc]
    rw [hstep, List.filter_cons]
    by_cases hf : ev.category = some c
    · simp only [hf, decide_True, if_true, List.length_cons]
      omega
    · simp only [hf, decide_False, if_false, Bool.false_eq_true]
      omega

theorem weightOf_tagPhase (d : List (String × Nat)) (evs : List RawEvent)
    (c : String) (hc : c ≠ "") :
    weightOf (tagPhase d evs) c
      = weightOf d c + 2 * (evs.map (fun ev => ev.tags.count c)).sum := by
  induction evs generalizing d with
  | nil => simp [tagPhase]
  | cons ev evs ih =>
    show weightOf (tagPhase (seedWeights d ev.tags 2) evs) c = _
    rw [ih, weightOf_seedWeights d ev.tags 2 c hc]
    simp only [List.map_cons, List.sum_cons]
    ring

/-! ### Helper lemmas: the ranking pipeline -/

theorem pyInt_intCast (n : ℤ) : pyInt (n : ℚ) = n := by
  unfold pyInt
  rcases le_or_lt 0 n with h | h
  · rw [if_pos (by exact_mod_cast h : (0:ℚ) ≤ (n:ℚ))]
    rw [Rat.num_intCast, Rat.den_intCast, Nat.div_one]
    omega
  · rw [if_neg (by exact_mod_cast not_le.mpr h : ¬ (0:ℚ) ≤ (n:ℚ))]
    rw [Rat.num_intCast, Rat.den_intCast, Nat.div_one]
    omega

theorem pyInt_natCast (n : ℕ) : pyInt (n : ℚ) = n := by
  have : ((n : ℤ) : ℚ) = (n : ℚ) := by push_cast; ring
  rw [← this, pyInt_intCast]

theorem pyRound2_natCast (n : ℕ) : pyRound2 (n : ℚ) = n := by
  have : ((n : ℤ) : ℚ) = (n : ℚ) := by push_cast; ring
  rw [← this, pyRound2_intCast]

theorem calculate_similarity_score_nonneg (sim : String → String → Option ℚ)
    (p : UserProfile) (e : CandidateEvent) : 0 ≤ calculate_similarity_score sim p e :=
  le_min (by norm_num) (le_max_left 0 _)

theorem calculate_similarity_score_le_100 (sim : String → String → Option ℚ)
    (p : UserProfile) (e : CandidateEvent) : calculate_similarity_score sim p e ≤ 100 :=
  min_le_left 100 _

theorem cold_start_score_bounds (e : CandidateEvent) :
    40 ≤ cold_start_score e ∧ cold_start_score e ≤ 70 := by
  unfold cold_start_score
  rcases e.date with _ | d
  all_goals dsimp only
  · split_ifs <;> norm_num
  · split_ifs <;> norm_num

theorem adjusted_score_nonneg (sim : String → String → Option ℚ)
    (p : UserProfile) (e : CandidateEvent) : 0 ≤ adjusted_score sim p e := by
  unfold adjusted_score
  split_ifs
  · linarith [(cold_start_score_bounds e).1]
  · exact calculate_similarity_score_nonneg sim p e

theorem adjusted_score_le_100 (sim : String → String → Option ℚ)
    (p : UserProfile) (e : CandidateEvent) : adjusted_score sim p e ≤ 100 := by
  unfold adjusted_score
  split_ifs
  · linarith [(cold_start_score_bounds e).2]
  · exact calculate_similarity_score_le_100 sim p e

theorem format_rec_confidence (p : UserProfile) (x : CandidateEvent × ℚ × Int) :
    (format_rec p x).confidence = x.2.2 := rfl

theorem format_rec_score (p : UserProfile) (x : CandidateEvent × ℚ × Int) :
    (format_rec p x).score = pyRound2 x.2.1 := rfl

theorem score_entry_score (sim : String → String → Option ℚ)
    (p : UserProfile) (e : CandidateEvent) :
    (score_entry sim p e).2.1 = adjusted_score sim p e := rfl

theorem score_entry_confidence (sim : String → String → Option ℚ)
    (p : UserProfile) (e : CandidateEvent) :
    (score_entry sim p e).2.2
      = min 10 (max 1 (pyInt (adjusted_score sim p e / 10))) := rfl

/-- `get_recommendations` unconditionally equals its sort-and-take pipeline
(the empty-candidates early return coincides with it). -/
theorem get_recommendations_eq (sim : String → String → Option ℚ)
    (p : UserProfile) (events : List CandidateEvent) (top_n : Int) :
    get_recommendations sim p events top_n
      = (pyTake top_n (sortD (fun x => x.2.1) (events.map (score_entry sim p)))).map
          (format_rec p) := by
  unfold get_recommendations
  by_cases hev : events = []
  · subst hev
    rw [if_pos rfl]
    show ([] : List ScoredRecommendation) = (pyTake top_n (sortD _ [])).map _
    unfold sortD pyTake
    simp
  · rw [if_neg hev]

/-- Every returned recommendation is the formatted scored entry of some
input candidate. -/
theorem mem_get_recommendations {sim : String → String → Option ℚ}
    {p : UserProfile} {events : List CandidateEvent} {top_n : Int}
    {r : ScoredRecommendation} (h : r ∈ get_recommendations sim p events top_n) :
    ∃ e ∈ events, r = format_rec p (score_entry sim p e) := by
  rw [get_recommendations_eq] at h
  rcases List.mem_map.mp h with ⟨x, hx, rfl⟩
  have hx2 : x ∈ sortD (fun y => y.2.1) (events.map (score_entry sim p)) :=
    pyTake_subset _ _ x hx
  have hx3 : x ∈ events.map (score_entry sim p) := (sortD_perm _ _).mem_iff.mp hx2
  rcases List.mem_map.mp hx3 with ⟨e, he, rfl⟩
  exact ⟨e, he, rfl⟩

theorem get_recommendations_length (sim : String → String → Option ℚ)
    (p : UserProfile) (events : List CandidateEvent) {top_n : Int} (hn : 0 ≤ top_n) :
    (get_recommendations sim p events top_n).length = min top_n.toNat events.length := by
  rw [get_recommendations_eq, List.length_map, pyTake_length_nonneg hn,
    sortD_length, List.length_map]

theorem get_recommendations_ne_nil (sim : String → String → Option ℚ)
    (p : UserProfile) {events : List CandidateEvent} {top_n : Int}
    (hev : events ≠ []) (hn : 1 ≤ top_n) :
    get_recommendations sim p events top_n ≠ [] := by
  rw [get_recommendations_eq]
  intro h
  have h2 := List.map_eq_nil_iff.mp h
  have h3 : sortD (fun x : CandidateEvent × ℚ × Int => x.2.1)
      (events.map (score_entry sim p)) ≠ [] := by
    intro h4
    have h5 := sortD_length (fun x : CandidateEvent × ℚ × Int => x.2.1)
      (events.map (score_entry sim p))
    rw [h4, List.length_map, List.length_nil] at h5
    exact hev (List.length_eq_zero.mp h5.symm)
  exact pyTake_ne_nil hn h3 h2

/-! ### Helper lemmas: concrete evaluations -/

theorem adjusted_blank : adjusted_score simNone profEmpty evBlank = 40 := by
  have hcold : isColdStart profEmpty := ⟨rfl, rfl, rfl⟩
  unfold adjusted_score
  rw [if_pos hcold]
  show cold_start_score evBlank = 40
  unfold cold_start_score evBlank popRatio
  norm_num

theorem pyInt_four : pyInt ((40:ℚ)/10) = 4 := by
  have h4 : ((40:ℚ)/10) = ((4:ℕ):ℚ) := by norm_num
  rw [h4, pyInt_natCast]
  norm_num

theorem pyRound2_forty : pyRound2 (40:ℚ) = 40 := by
  have h4 : (40:ℚ) = ((40:ℕ):ℚ) := by norm_num
  rw [h4, pyRound2_natCast]

theorem score_entry_blank :
    score_entry simNone profEmpty evBlank = (evBlank, (40:ℚ), (4:ℤ)) := by
  simp only [score_entry, adjusted_blank, pyInt_four]
  norm_num

theorem match_factors_blank :
    get_match_factors profEmpty evBlank = ["Based on your preferences"] := by
  decide

theorem reason_blank :
    generate_reason 40 ["Based on your preferences"]
      = "May interest you: Based on your preferences" := by
  unfold generate_reason
  rw [if_neg (by norm_num), if_neg (by norm_num), if_pos (by norm_num)]
  rfl

theorem format_rec_blank :
    format_rec profEmpty (evBlank, (40:ℚ), (4:ℤ)) = recBlank := by
  unfold format_rec
  simp only [match_factors_blank, reason_blank, pyRound2_forty]
  rfl

theorem eval_blank :
    get_recommendations simNone profEmpty [evBlank] 5 = [recBlank] := by
  rw [get_recommendations_eq]
  rw [List.map_singleton, score_entry_blank]
  rw [show sortD (fun x : CandidateEvent × ℚ × Int => x.2.1) [(evBlank, (40:ℚ), (4:ℤ))]
      = [(evBlank, (40:ℚ), (4:ℤ))] from rfl]
  rw [show pyTake 5 [(evBlank, (40:ℚ), (4:ℤ))] = [(evBlank, (40:ℚ), (4:ℤ))] from rfl]
  rw [List.map_singleton, format_rec_blank]

theorem pyInt_nonneg_eq_floor {q : ℚ} (h : 0 ≤ q) : pyInt q = ⌊q⌋ := by
  unfold pyInt
  rw [if_pos h]
  have hnum : 0 ≤ q.num := Rat.num_nonneg.mpr h
  rw [Int.ofNat_ediv, Int.toNat_of_nonneg hnum,
    ← Rat.floor_intCast_div_natCast q.num q.den, Rat.num_div_den]

theorem floor_three_halves : ⌊(15:ℚ)/10⌋ = 1 := by
  have h : ((15:ℚ)/10) = (((15:ℤ):ℚ)/((10:ℕ):ℚ)) := by norm_num
  rw [h, Rat.floor_intCast_div_natCast]
  decide

theorem pyInt_fifteen : pyInt ((15:ℚ)/10) = 1 := by
  rw [pyInt_nonneg_eq_floor (by norm_num), floor_three_halves]

theorem rhe_three_halves : rhe ((15:ℚ)/10) = 2 := by
  unfold rhe
  rw [floor_three_halves]
  rw [if_neg (by norm_num), if_neg (by norm_num), if_neg (by norm_num)]
  decide

theorem pyRound2_fifteen : pyRound2 (15:ℚ) = 15 := by
  have h : (15:ℚ) = ((15:ℕ):ℚ) := by norm_num
  rw [h, pyRound2_natCast]

/-! ### Helper lemmas: concrete similarity scores -/

theorem category_mu : category_score ["mu"] "music" = 15 := by
  simp only [category_score]
  rw [if_neg (by decide), if_pos (by decide)]

theorem category_tech : category_score ["music"] "tech" = 0 := by
  simp only [category_score]
  rw [if_neg (by decide), if_neg (by decide)]

theorem adjusted_mu : adjusted_score simZero profMu evMusic = 15 := by
  have hnotcold : ¬ isColdStart profMu := fun h => absurd h.1 (by decide)
  unfold adjusted_score
  rw [if_neg hnotcold]
  show min 100 (max 0
    (category_score ["mu"] "music" + tag_score [] []
      + text_score simZero "mu" "  music"
      + date_score none + popularity_score 0 10)) = 15
  have htext : text_score simZero "mu" "  music" = 0 := by
    unfold text_score
    rw [if_pos ⟨by decide, by decide⟩]
    show (0:ℚ) * 25 = 0
    norm_num
  rw [category_mu, htext]
  norm_num [tag_score, date_score, popularity_score, popRatio]

theorem adjusted_tech (i : String) :
    adjusted_score simZero profMusic (evTech i) = 0 := by
  have hnotcold : ¬ isColdStart profMusic := fun h => absurd h.1 (by decide)
  unfold adjusted_score
  rw [if_neg hnotcold]
  show min 100 (max 0
    (category_score ["music"] "tech" + tag_score [] []
      + text_score simZero "music" "  tech"
      + date_score (some 40) + popularity_score 0 10)) = 0
  have htext : text_score simZero "music" "  tech" = 0 := by
    unfold text_score
    rw [if_pos ⟨by decide, by decide⟩]
    show (0:ℚ) * 25 = 0
    norm_num
  rw [category_tech, htext]
  norm_num [tag_score, date_score, popularity_score, popRatio]

/-! ### Helper lemmas: the cold-start formula matches the spec's wording -/

theorem cold_start_score_eq_spec (e : CandidateEvent) :
    cold_start_score e = spec_cold_score e := by
  unfold cold_start_score spec_cold_score popRatio
  have h : (if e.max_participants = 0 then 1 else e.max_participants)
      = max e.max_participants 1 := by
    rcases e.max_participants with _ | n
    · rfl
    · simp [Nat.max_eq_left (Nat.succ_le_succ (Nat.zero_le n))]
  rw [h]

theorem pyRound2_cold_start (e : CandidateEvent) :
    pyRound2 (cold_start_score e) = cold_start_score e := by
  unfold cold_start_score
  rcases e.date with _ | d
  · dsimp only
    split_ifs
    · rw [show (40:ℚ)+20+0 = ((60:ℕ):ℚ) by norm_num, pyRound2_natCast]
    · rw [show (40:ℚ)+10+0 = ((50:ℕ):ℚ) by norm_num, pyRound2_natCast]
    · rw [show (40:ℚ)+0+0 = ((40:ℕ):ℚ) by norm_num, pyRound2_natCast]
  · dsimp only
    split_ifs
    · rw [show (40:ℚ)+20+10 = ((70:ℕ):ℚ) by norm_num, pyRound2_natCast]
    · rw [show (40:ℚ)+20+0 = ((60:ℕ):ℚ) by norm_num, pyRound2_natCast]
    · rw [show (40:ℚ)+10+10 = ((60:ℕ):ℚ) by norm_num, pyRound2_natCast]
    · rw [show (40:ℚ)+10+0 = ((50:ℕ):ℚ) by norm_num, pyRound2_natCast]
    · rw [show (40:ℚ)+0+10 = ((50:ℕ):ℚ) by norm_num, pyRound2_natCast]
    · rw [show (40:ℚ)+0+0 = ((40:ℕ):ℚ) by norm_num, pyRound2_natCast]

/-! ### Helper lemmas: endpoint assembly -/

theorem endpoint_not_fallback {sim : String → String → Option ℚ}
    {p : UserProfile} {events : List CandidateEvent} {top_n : Int}
    (h : get_recommendations sim p events top_n ≠ []) :
    get_personalized_recommendations sim p events top_n
      = (get_recommendations sim p events top_n).map EndpointRec.scored := by
  simp only [get_personalized_recommendations]
  rw [if_neg]
  intro hc
  exact h hc.1

theorem get_recommendations_pairwise (sim : String → String → Option ℚ)
    (p : UserProfile) (events : List CandidateEvent) (top_n : Int) :
    (get_recommendations sim p events top_n).Pairwise
      (fun r1 r2 => r2.score ≤ r1.score) := by
  rw [get_recommendations_eq]
  exact List.Pairwise.map _ (fun a b hab => pyRound2_mono hab)
    (List.Pairwise.sublist (pyTake_sublist _ _) (sortD_pairwise _ _))

theorem pyLower_empty : pyLower "" = "" := rfl

/-! ### Claim theorems -/

/-- C1: for every profile and candidate event the similarity score
`calculate_similarity_score` returns lies in [0, 100], and the confidence
attached to every recommendation produced by `get_recommendations` is an
integer in [1, 10] — never 0 — including when the cold-start override
replaces the five-component score. -/
theorem claim_C1_score_confidence_bounds (sim : String → String → Option ℚ)
    (p : UserProfile) (e : CandidateEvent)
    (events : List CandidateEvent) (top_n : Int) :
    (0 ≤ calculate_similarity_score sim p e
      ∧ calculate_similarity_score sim p e ≤ 100)
    ∧ ∀ r ∈ get_recommendations sim p events top_n,
        1 ≤ r.confidence ∧ r.confidence ≤ 10 := by
  refine ⟨⟨calculate_similarity_score_nonneg sim p e,
    calculate_similarity_score_le_100 sim p e⟩, ?_⟩
  intro r hr
  rcases mem_get_recommendations hr with ⟨e', _, rfl⟩
  rw [format_rec_confidence, score_entry_confidence]
  exact ⟨le_min (by norm_num) (le_max_left 1 _), min_le_left 10 _⟩

/-- Witness for C1 at a concrete profile, event and produced
recommendation. -/
theorem claim_C1_score_confidence_bounds_witness :
    ((0 ≤ calculate_similarity_score simNone profEmpty evBlank
        ∧ calculate_similarity_score simNone profEmpty evBlank ≤ 100))
    ∧ (1 ≤ recBlank.confidence ∧ recBlank.confidence ≤ 10) :=
  ⟨(claim_C1_score_confidence_bounds simNone profEmpty evBlank [evBlank] 5).1,
   (claim_C1_score_confidence_bounds simNone profEmpty evBlank [evBlank] 5).2 recBlank
     (by rw [eval_blank]; exact List.mem_singleton.mpr rfl)⟩

/-- C2: for a non-empty candidate list and a positive `top_n`,
`get_recommendations` returns `min top_n (number of candidates)`
recommendations, sorted by score descending; the sorted scored list it is
cut from is a permutation of the scored candidates that preserves the
relative input order of equal-scored entries (stable sort). -/
theorem claim_C2_length_sorted_stable (sim : String → String → Option ℚ)
    (p : UserProfile) (events : List CandidateEvent) (top_n : Int)
    (hev : events ≠ []) (hn : 1 ≤ top_n) :
    (get_recommendations sim p events top_n).length = min top_n.toNat events.length
    ∧ (get_recommendations sim p events top_n).Pairwise
        (fun r1 r2 => r2.score ≤ r1.score)
    ∧ ∃ s : List (CandidateEvent × ℚ × Int),
        List.Perm s (events.map (score_entry sim p))
        ∧ s.Pairwise (fun a b => b.2.1 ≤ a.2.1)
        ∧ (∀ q : ℚ, s.filter (fun a => a.2.1 = q)
            = (events.map (score_entry sim p)).filter (fun a => a.2.1 = q))
        ∧ get_recommendations sim p events top_n = (pyTake top_n s).map (format_rec p) := by
  refine ⟨get_recommendations_length sim p events (by omega),
    get_recommendations_pairwise sim p events top_n, ?_⟩
  exact ⟨sortD (fun x => x.2.1) (events.map (score_entry sim p)),
    sortD_perm _ _, sortD_pairwise _ _, fun q => sortD_filter_key _ _ q,
    get_recommendations_eq sim p events top_n⟩

/-- Witness for C2 at a concrete non-empty candidate list. -/
theorem claim_C2_length_sorted_stable_witness :
    (get_recommendations simNone profEmpty [evBlank] 5).length
        = min (5:Int).toNat [evBlank].length
    ∧ (get_recommendations simNone profEmpty [evBlank] 5).Pairwise
        (fun r1 r2 => r2.score ≤ r1.score)
    ∧ ∃ s : List (CandidateEvent × ℚ × Int),
        List.Perm s ([evBlank].map (score_entry simNone profEmpty))
        ∧ s.Pairwise (fun a b => b.2.1 ≤ a.2.1)
        ∧ (∀ q : ℚ, s.filter (fun a => a.2.1 = q)
            = ([evBlank].map (score_entry simNone profEmpty)).filter (fun a => a.2.1 = q))
        ∧ get_recommendations simNone profEmpty [evBlank] 5
            = (pyTake 5 s).map (format_rec profEmpty) :=
  claim_C2_length_sorted_stable simNone profEmpty [evBlank] 5
    (by decide) (by norm_num)

/-- C3: for a profile with no favorite categories, no favorite tags and no
participation history, the score attached to every recommendation equals
exactly the spec's cold-start formula (base 40, popularity bonus, date
bonus) — never the five-component score. -/
theorem claim_C3_cold_start_formula (sim : String → String → Option ℚ)
    (p : UserProfile) (events : List CandidateEvent) (top_n : Int)
    (h1 : p.favorite_categories = []) (h2 : p.favorite_tags = [])
    (h3 : p.participation_history = []) :
    ∀ r ∈ get_recommendations sim p events top_n,
      ∃ e ∈ events, r.score = spec_cold_score e := by
  intro r hr
  rcases mem_get_recommendations hr with ⟨e, he, rfl⟩
  refine ⟨e, he, ?_⟩
  rw [format_rec_score, score_entry_score]
  unfold adjusted_score
  rw [if_pos ⟨h1, h2, h3⟩, pyRound2_cold_start, cold_start_score_eq_spec]

/-- Witness for C3 at a concrete cold-start profile. -/
theorem claim_C3_cold_start_formula_witness :
    ∃ e ∈ [evBlank], recBlank.score = spec_cold_score e :=
  claim_C3_cold_start_formula simNone profEmpty [evBlank] 5 rfl rfl rfl recBlank
    (by rw [eval_blank]; exact List.mem_singleton.mpr rfl)

/-- C8: scoring is deterministic — the vectorizer state left by earlier
calls has no influence on the score, two successive calls on the same
pair agree, and the state-threaded computation coincides with the
stateless scoring function. -/
theorem claim_C8_scoring_deterministic (sim : String → String → Option ℚ)
    (st1 st2 : List String) (p : UserProfile) (e : CandidateEvent) :
    (calc_with_state sim st1 p e).1 = (calc_with_state sim st2 p e).1
    ∧ (calc_with_state sim (calc_with_state sim st1 p e).2 p e).1
        = (calc_with_state sim st1 p e).1
    ∧ (calc_with_state sim st1 p e).1 = calculate_similarity_score sim p e := by
  have key : ∀ st : List String,
      (calc_with_state sim st p e).1 = calculate_similarity_score sim p e := by
    intro st
    by_cases hc : build_user_text p ≠ "" ∧ build_event_text e ≠ ""
    all_goals rcases hsim : sim (build_user_text p) (build_event_text e) with _ | s
    all_goals
      simp [calc_with_state, calculate_similarity_score, text_score,
        fit_transform_sim, hc, hsim]
  exact ⟨(key st1).trans (key st2).symm, (key _).trans (key st1).symm, key st1⟩

/-- C9: for a profile with at least one favorite category (none of them
empty, hence no exact match) and an event whose category is the empty
string or missing, the category component is 15, not 0 — the empty string
is a substring of every favorite category. -/
theorem claim_C9_empty_category_scores_15 (user_categories : List String)
    (hne : user_categories ≠ [])
    (hnx : ∀ cat ∈ user_categories, pyLower cat ≠ "") :
    category_score user_categories "" = 15 := by
  simp only [category_score]
  rw [if_neg, if_pos]
  · rcases user_categories with _ | ⟨c, cs⟩
    · exact absurd rfl hne
    · apply List.any_eq_true.mpr
      refine ⟨c, List.mem_cons_self c cs, ?_⟩
      have h2 : pyIn (pyLower "") (pyLower c) = true := by
        rw [pyLower_empty]
        exact pyIn_empty (pyLower c)
      rw [h2, Bool.or_true]
  · intro hcon
    rcases List.contains_iff_exists_mem_beq.mp hcon with ⟨b, hb, hbeq⟩
    rcases List.mem_map.mp hb with ⟨cat, hcat, rfl⟩
    have heq : pyLower "" = pyLower cat := eq_of_beq hbeq
    rw [pyLower_empty] at heq
    exact hnx cat hcat heq.symm

/-- Witness for C9 with the single favorite category `music`. -/
theorem claim_C9_empty_category_scores_15_witness :
    category_score ["music"] "" = 15 :=
  claim_C9_empty_category_scores_15 ["music"] (by decide)
    (by intro cat hcat; rcases List.mem_singleton.mp hcat with rfl; decide)

/-- C10: with candidates present and a positive `top_n` the service never
returns an empty list, and an entry whose reported score is 0 carries
confidence 1. -/
theorem claim_C10_never_empty (sim : String → String → Option ℚ)
    (p : UserProfile) (events : List CandidateEvent) (top_n : Int)
    (hev : events ≠ []) (hn : 1 ≤ top_n) :
    get_recommendations sim p events top_n ≠ []
    ∧ ∀ r ∈ get_recommendations sim p events top_n,
        r.score = 0 → r.confidence = 1 := by
  refine ⟨get_recommendations_ne_nil sim p hev hn, ?_⟩
  intro r hr hs
  rcases mem_get_recommendations hr with ⟨e, he, rfl⟩
  rw [format_rec_score, score_entry_score] at hs
  rw [format_rec_confidence, score_entry_confidence]
  have h0 : 0 ≤ adjusted_score sim p e := adjusted_score_nonneg sim p e
  have hlt : adjusted_score sim p e < ((0:ℤ):ℚ) + 1/100 := by
    apply lt_of_pyRound2_le
    rw [hs]
    norm_num
  have hdiv0 : 0 ≤ adjusted_score sim p e / 10 := by positivity
  have hdiv1 : adjusted_score sim p e / 10 < 1 := by
    push_cast at hlt
    linarith
  rw [pyInt_eq_zero hdiv0 hdiv1]
  norm_num

/-- Witness for C10 at a concrete candidate list. -/
theorem claim_C10_never_empty_witness :
    get_recommendations simNone profEmpty [evBlank] 5 ≠ []
    ∧ (recBlank.score = 0 → recBlank.confidence = 1) :=
  ⟨(claim_C10_never_empty simNone profEmpty [evBlank] 5 (by decide) (by norm_num)).1,
   (claim_C10_never_empty simNone profEmpty [evBlank] 5 (by decide) (by norm_num)).2
     recBlank (by rw [eval_blank]; exact List.mem_singleton.mpr rfl)⟩

/-! ### Evaluation lemmas for the corrected claims -/

theorem eval_mu :
    (get_recommendations simZero profMu [evMusic] 5).map (fun r => (r.score, r.confidence))
      = [((15:ℚ), (1:ℤ))] := by
  rw [get_recommendations_eq, List.map_singleton]
  have hse : score_entry simZero profMu evMusic = (evMusic, (15:ℚ), (1:ℤ)) := by
    simp only [score_entry, adjusted_mu, pyInt_fifteen]
    norm_num
  rw [hse]
  rw [show sortD (fun x : CandidateEvent × ℚ × Int => x.2.1) [(evMusic, (15:ℚ), (1:ℤ))]
      = [(evMusic, (15:ℚ), (1:ℤ))] from rfl]
  rw [show pyTake 5 [(evMusic, (15:ℚ), (1:ℤ))] = [(evMusic, (15:ℚ), (1:ℤ))] from rfl]
  rw [List.map_singleton, List.map_singleton]
  rw [format_rec_score, format_rec_confidence]
  show [((pyRound2 (15:ℚ)), (1:ℤ))] = [((15:ℚ), (1:ℤ))]
  rw [pyRound2_fifteen]

theorem eval_tech :
    (get_recommendations simZero profMusic [evTech "a", evTech "b", evTech "c"] 5).map
      (fun r => (r.score, r.confidence)) = [((0:ℚ), (1:ℤ)), (0, 1), (0, 1)] := by
  have hz10 : ((0:ℚ)/10) = ((0:ℕ):ℚ) := by norm_num
  have hpy0 : pyInt ((0:ℚ)/10) = 0 := by rw [hz10, pyInt_natCast]; norm_num
  have hrnd0 : pyRound2 (0:ℚ) = 0 := by simpa using pyRound2_natCast 0
  have hse : ∀ i, score_entry simZero profMusic (evTech i) = (evTech i, (0:ℚ), (1:ℤ)) := by
    intro i
    simp only [score_entry, adjusted_tech, hpy0]
    norm_num
  rw [get_recommendations_eq]
  rw [show [evTech "a", evTech "b", evTech "c"].map (score_entry simZero profMusic)
      = [(evTech "a", (0:ℚ), (1:ℤ)), (evTech "b", (0:ℚ), (1:ℤ)), (evTech "c", (0:ℚ), (1:ℤ))] by
    rw [List.map_cons, List.map_cons, List.map_singleton, hse, hse, hse]]
  rw [show sortD (fun x : CandidateEvent × ℚ × Int => x.2.1)
        [(evTech "a", (0:ℚ), (1:ℤ)), (evTech "b", (0:ℚ), (1:ℤ)), (evTech "c", (0:ℚ), (1:ℤ))]
      = [(evTech "a", (0:ℚ), (1:ℤ)), (evTech "b", (0:ℚ), (1:ℤ)), (evTech "c", (0:ℚ), (1:ℤ))]
      from rfl]
  rw [show pyTake 5 [(evTech "a", (0:ℚ), (1:ℤ)), (evTech "b", (0:ℚ), (1:ℤ)),
        (evTech "c", (0:ℚ), (1:ℤ))]
      = [(evTech "a", (0:ℚ), (1:ℤ)), (evTech "b", (0:ℚ), (1:ℤ)), (evTech "c", (0:ℚ), (1:ℤ))]
      from rfl]
  simp only [List.map_cons, List.map_nil]
  have hfmt : ∀ i, ((format_rec profMusic (evTech i, (0:ℚ), (1:ℤ))).score,
      (format_rec profMusic (evTech i, (0:ℚ), (1:ℤ))).confidence) = ((0:ℚ), (1:ℤ)) := by
    intro i
    rw [format_rec_score, format_rec_confidence, hrnd0]
  rw [hfmt, hfmt, hfmt]

/-! ### Corrected claims -/

/-- Counterexample to C4 as stated: at this input the produced
recommendation has score 15 and confidence 1, while
`clamp(round(15/10), 1, 10) = 2` — the code truncates `score/10` with
`int(...)` instead of rounding to the nearest integer. -/
theorem claim_C4_counterexample :
    (get_recommendations simZero profMu [evMusic] 5).map (fun r => (r.score, r.confidence))
        = [((15:ℚ), (1:ℤ))]
    ∧ min 10 (max 1 (rhe ((15:ℚ) / 10))) = 2 := by
  refine ⟨eval_mu, ?_⟩
  rw [rhe_three_halves]
  norm_num

/-- C4 amended: the confidence attached to a recommendation is
`clamp(int(s / 10), 1, 10)` where `int` truncates toward zero and `s` is
that event's internal pre-rounding score; the reported score field is `s`
rounded to two decimal places. -/
theorem claim_C4_amended_confidence_truncates (sim : String → String → Option ℚ)
    (p : UserProfile) (events : List CandidateEvent) (top_n : Int) :
    ∀ r ∈ get_recommendations sim p events top_n,
      ∃ e ∈ events,
        r.confidence = min 10 (max 1 (pyInt (adjusted_score sim p e / 10)))
        ∧ r.score = pyRound2 (adjusted_score sim p e) := by
  intro r hr
  rcases mem_get_recommendations hr with ⟨e, he, rfl⟩
  exact ⟨e, he, rfl, rfl⟩

/-- Witness for the amended C4 at a concrete input. -/
theorem claim_C4_amended_confidence_truncates_witness :
    ∃ e ∈ [evBlank],
      recBlank.confidence = min 10 (max 1 (pyInt (adjusted_score simNone profEmpty e / 10)))
      ∧ recBlank.score = pyRound2 (adjusted_score simNone profEmpty e) :=
  claim_C4_amended_confidence_truncates simNone profEmpty [evBlank] 5 recBlank
    (by rw [eval_blank]; exact List.mem_singleton.mpr rfl)

/-- Counterexample to C5 as stated: all three candidates' computed scores
are 0 and all are future events, yet the endpoint returns the service's
zero-score entries (non-fallback, score 0) rather than the
fixed-popularity fallback entries (score 50). -/
theorem claim_C5_counterexample :
    (∀ e ∈ [evTech "a", evTech "b", evTech "c"],
        adjusted_score simZero profMusic e = 0 ∧ e.date = some 40)
    ∧ (get_personalized_recommendations simZero profMusic
          [evTech "a", evTech "b", evTech "c"] 5).map endpointProj
        = [((false : Bool), (0:ℚ)), (false, 0), (false, 0)] := by
  constructor
  · intro e he
    simp only [List.mem_cons, List.not_mem_nil, or_false] at he
    rcases he with rfl | rfl | rfl
    all_goals exact ⟨adjusted_tech _, rfl⟩
  · have hne : get_recommendations simZero profMusic
        [evTech "a", evTech "b", evTech "c"] 5 ≠ [] :=
      get_recommendations_ne_nil simZero profMusic (by decide) (by norm_num)
    rw [endpoint_not_fallback hne, List.map_map]
    have hcomp : (endpointProj ∘ EndpointRec.scored)
        = (fun pr : ℚ × ℤ => ((false : Bool), pr.1)) ∘ (fun r => (r.score, r.confidence)) := rfl
    rw [hcomp, ← List.map_map, eval_tech]
    rfl

/-- C5 amended: the fixed-popularity fallback fires only when the service
returned an empty list while candidates exist; since the service emits an
entry for every candidate whenever `top_n ≥ 1`, all-zero computed scores
do not trigger it — the endpoint returns the service's own entries, each
with score 0 and confidence 1. -/
theorem claim_C5_amended_no_fallback_on_zero_scores (sim : String → String → Option ℚ)
    (p : UserProfile) (events : List CandidateEvent) (top_n : Int)
    (hev : events ≠ []) (hn : 1 ≤ top_n)
    (hz : ∀ e ∈ events, adjusted_score sim p e = 0) :
    get_personalized_recommendations sim p events top_n
      = (get_recommendations sim p events top_n).map EndpointRec.scored
    ∧ ∀ r ∈ get_recommendations sim p events top_n, r.score = 0 ∧ r.confidence = 1 := by
  refine ⟨endpoint_not_fallback (get_recommendations_ne_nil sim p hev hn), ?_⟩
  intro r hr
  rcases mem_get_recommendations hr with ⟨e, he, rfl⟩
  constructor
  · rw [format_rec_score, score_entry_score, hz e he]
    simpa using pyRound2_natCast 0
  · rw [format_rec_confidence, score_entry_confidence, hz e he]
    have hz10 : ((0:ℚ)/10) = ((0:ℕ):ℚ) := by norm_num
    rw [hz10, pyInt_natCast]
    norm_num

/-- Witness for the amended C5 at a concrete all-zero-score input. -/
theorem claim_C5_amended_no_fallback_on_zero_scores_witness :
    get_personalized_recommendations simZero profMusic
        [evTech "a", evTech "b", evTech "c"] 5
      = (get_recommendations simZero profMusic
          [evTech "a", evTech "b", evTech "c"] 5).map EndpointRec.scored
    ∧ ∀ r ∈ get_recommendations simZero profMusic
          [evTech "a", evTech "b", evTech "c"] 5,
        r.score = 0 ∧ r.confidence = 1 :=
  claim_C5_amended_no_fallback_on_zero_scores simZero profMusic
    [evTech "a", evTech "b", evTech "c"] 5 (by decide) (by norm_num)
    (by
      intro e he
      simp only [List.mem_cons, List.not_mem_nil, or_false] at he
      rcases he with rfl | rfl | rfl
      all_goals exact adjusted_tech _)

/-- Counterexample to C6 as stated: a negative `top_n` is not rejected by
any precondition check — the computation completes normally, the slice
interpreting `top_n = -1` as `take (length - 1)`: with two candidates the
result coincides with `top_n = 1`, with one candidate it is silently
empty. -/
theorem claim_C6_counterexample :
    get_recommendations simZero profMusic [evTech "a", evTech "b"] (-1)
      = get_recommendations simZero profMusic [evTech "a", evTech "b"] 1
    ∧ get_recommendations simZero profMusic [evTech "a"] (-1) = [] := by
  constructor
  · rw [get_recommendations_eq, get_recommendations_eq]
    congr 1
    unfold pyTake
    rw [if_neg (by norm_num), if_pos (by norm_num)]
    congr 1
    rw [sortD_length, List.length_map]
    decide
  · rw [get_recommendations_eq]
    unfold pyTake
    rw [if_neg (by norm_num)]
    have hlen : (sortD (fun x : CandidateEvent × ℚ × Int => x.2.1)
        ([evTech "a"].map (score_entry simZero profMusic))).length = 1 := by
      rw [sortD_length, List.length_map, List.length_singleton]
    rw [hlen]
    norm_num

/-- C6 amended: the scoring core computes a structurally valid result for
every input — confidences in [1, 10] and reported scores in [0, 100] —
but there is no precondition check on `top_n`: any integer, negative
included, reaches the list slice, whose Python semantics fix the result
length. -/
theorem claim_C6_amended_total_without_precondition (sim : String → String → Option ℚ)
    (p : UserProfile) (events : List CandidateEvent) (top_n : Int) :
    (∀ r ∈ get_recommendations sim p events top_n,
        (1 ≤ r.confidence ∧ r.confidence ≤ 10) ∧ (0 ≤ r.score ∧ r.score ≤ 100))
    ∧ (get_recommendations sim p events top_n).length
        = if 0 ≤ top_n then min top_n.toNat events.length
          else min ((events.length : Int) + top_n).toNat events.length := by
  constructor
  · intro r hr
    rcases mem_get_recommendations hr with ⟨e, he, rfl⟩
    rw [format_rec_confidence, score_entry_confidence, format_rec_score, score_entry_score]
    refine ⟨⟨le_min (by norm_num) (le_max_left 1 _), min_le_left 10 _⟩, ?_, ?_⟩
    · exact pyRound2_nonneg (adjusted_score_nonneg sim p e)
    · exact pyRound2_le_100 (adjusted_score_le_100 sim p e)
  · rw [get_recommendations_eq, List.length_map]
    unfold pyTake
    split_ifs with h
    · rw [List.length_take, sortD_length, List.length_map]
    · rw [List.length_take, sortD_length, List.length_map]

/-- Witness for the amended C6 at a concrete input and result. -/
theorem claim_C6_amended_total_without_precondition_witness :
    ((1 ≤ recBlank.confidence ∧ recBlank.confidence ≤ 10)
      ∧ (0 ≤ recBlank.score ∧ recBlank.score ≤ 100))
    ∧ (get_recommendations simNone profEmpty [evBlank] 5).length
        = if 0 ≤ (5:Int) then min (5:Int).toNat [evBlank].length
          else min (([evBlank].length : Int) + 5).toNat [evBlank].length :=
  ⟨(claim_C6_amended_total_without_precondition simNone profEmpty [evBlank] 5).1 recBlank
      (by rw [eval_blank]; exact List.mem_singleton.mpr rfl),
   (claim_C6_amended_total_without_precondition simNone profEmpty [evBlank] 5).2⟩

/-- Counterexample to C7 as stated: with no authored events and no
participations, duplicate signup categories are passed through verbatim,
so the resulting `favorite_categories` is not the weight-ranked top 3. -/
theorem claim_C7_counterexample :
    (build_user_profile ["a", "a", "b"] [] [] [] []).favorite_categories = ["a", "a", "b"]
    ∧ ((sortD (fun kv : String × Nat => kv.2)
          (seedWeights [] ["a", "a", "b"] 1)).take 3).map Prod.fst = ["a", "b"]
    ∧ (["a", "a", "b"] : List String) ≠ ["a", "b"] :=
  ⟨by decide, by decide, by decide⟩

/-- C7 amended: when the user has at least one authored event or
participation (and the accumulated weight maps are nonempty), the
favorites are the stable weight-descending top 3 categories and top 5
tags of maps accumulating weight 1 per signup occurrence and weight 2 per
authored or resolved-participation category and tag occurrence, ties kept
in first-insertion order; with no history the favorites are instead the
signup preferences passed through verbatim. -/
theorem claim_C7_amended_weighted_ranking
    (initial_categories initial_tags : List String)
    (user_events : List RawEvent) (participations : List Participation)
    (event_table : List (String × RawEvent))
    (hh : user_events ≠ [] ∨ participations ≠ [])
    (hcats : catPhase (catPhase (seedWeights [] initial_categories 1) user_events)
        (resolvedParts participations event_table) ≠ [])
    (htags : tagPhase (tagPhase (seedWeights [] initial_tags 1) user_events)
        (resolvedParts participations event_table) ≠ []) :
    (∀ c, c ≠ "" →
      weightOf (catPhase (catPhase (seedWeights [] initial_categories 1) user_events)
          (resolvedParts participations event_table)) c
        = initial_categories.count c
          + 2 * (user_events.filter (fun ev => ev.category = some c)).length
          + 2 * ((resolvedParts participations event_table).filter
              (fun ev => ev.category = some c)).length)
    ∧ (∀ t, t ≠ "" →
      weightOf (tagPhase (tagPhase (seedWeights [] initial_tags 1) user_events)
          (resolvedParts participations event_table)) t
        = initial_tags.count t
          + 2 * (user_events.map (fun ev => ev.tags.count t)).sum
          + 2 * ((resolvedParts participations event_table).map
              (fun ev => ev.tags.count t)).sum)
    ∧ (∃ ranked : List (String × Nat),
        List.Perm ranked (catPhase (catPhase (seedWeights [] initial_categories 1) user_events)
          (resolvedParts participations event_table))
        ∧ ranked.Pairwise (fun a b => b.2 ≤ a.2)
        ∧ (∀ w : Nat, ranked.filter (fun kv => kv.2 = w)
            = (catPhase (catPhase (seedWeights [] initial_categories 1) user_events)
                (resolvedParts participations event_table)).filter (fun kv => kv.2 = w))
        ∧ (build_user_profile initial_categories initial_tags user_events participations
            event_table).favorite_categories = (ranked.take 3).map Prod.fst)
    ∧ (∃ ranked : List (String × Nat),
        List.Perm ranked (tagPhase (tagPhase (seedWeights [] initial_tags 1) user_events)
          (resolvedParts participations event_table))
        ∧ ranked.Pairwise (fun a b => b.2 ≤ a.2)
        ∧ (∀ w : Nat, ranked.filter (fun kv => kv.2 = w)
            = (tagPhase (tagPhase (seedWeights [] initial_tags 1) user_events)
                (resolvedParts participations event_table)).filter (fun kv => kv.2 = w))
        ∧ (build_user_profile initial_categories initial_tags user_events participations
            event_table).favorite_tags = (ranked.take 5).map Prod.fst) := by
  have hnoHist : ¬ (user_events.length = 0 ∧ participations.length = 0) := by
    intro hcon
    rcases hh with h | h
    · exact h (List.length_eq_zero.mp hcon.1)
    · exact h (List.length_eq_zero.mp hcon.2)
  have hrc : ((sortD (fun kv : String × Nat => kv.2)
      (catPhase (catPhase (seedWeights [] initial_categories 1) user_events)
        (resolvedParts participations event_table))).take 3).map Prod.fst ≠ [] := by
    intro h
    have hl := congrArg List.length h
    rw [List.length_map, List.length_take, sortD_length, List.length_nil] at hl
    have : (catPhase (catPhase (seedWeights [] initial_categories 1) user_events)
        (resolvedParts participations event_table)).length = 0 := by omega
    exact hcats (List.length_eq_zero.mp this)
  have hrt : ((sortD (fun kv : String × Nat => kv.2)
      (tagPhase (tagPhase (seedWeights [] initial_tags 1) user_events)
        (resolvedParts participations event_table))).take 5).map Prod.fst ≠ [] := by
    intro h
    have hl := congrArg List.length h
    rw [List.length_map, List.length_take, sortD_length, List.length_nil] at hl
    have : (tagPhase (tagPhase (seedWeights [] initial_tags 1) user_events)
        (resolvedParts participations event_table)).length = 0 := by omega
    exact htags (List.length_eq_zero.mp this)
  refine ⟨?_, ?_, ?_, ?_⟩
  · intro c hc
    rw [weightOf_catPhase _ _ c hc, weightOf_catPhase _ _ c hc,
      weightOf_seedWeights _ _ _ c hc]
    simp [weightOf]
  · intro t ht
    rw [weightOf_tagPhase _ _ t ht, weightOf_tagPhase _ _ t ht,
      weightOf_seedWeights _ _ _ t ht]
    simp [weightOf]
  · refine ⟨sortD (fun kv : String × Nat => kv.2)
      (catPhase (catPhase (seedWeights [] initial_categories 1) user_events)
        (resolvedParts participations event_table)),
      sortD_perm _ _, sortD_pairwise _ _, fun w => sortD_filter_key _ _ w, ?_⟩
    simp only [build_user_profile]
    rw [if_neg hnoHist, if_pos hrc]
  · refine ⟨sortD (fun kv : String × Nat => kv.2)
      (tagPhase (tagPhase (seedWeights [] initial_tags 1) user_events)
        (resolvedParts participations event_table)),
      sortD_perm _ _, sortD_pairwise _ _, fun w => sortD_filter_key _ _ w, ?_⟩
    simp only [build_user_profile]
    rw [if_neg hnoHist, if_pos hrt]

/-- Witness for the amended C7 at a concrete one-authored-event input. -/
theorem claim_C7_amended_weighted_ranking_witness :
    (∀ c, c ≠ "" →
      weightOf (catPhase (catPhase (seedWeights [] ["a"] 1)
          [⟨"T", some "b", ["y"]⟩]) (resolvedParts [] [])) c
        = (["a"] : List String).count c
          + 2 * (([⟨"T", some "b", ["y"]⟩] : List RawEvent).filter
              (fun ev => ev.category = some c)).length
          + 2 * ((resolvedParts [] []).filter (fun ev => ev.category = some c)).length)
    ∧ (∀ t, t ≠ "" →
      weightOf (tagPhase (tagPhase (seedWeights [] ["x"] 1)
          [⟨"T", some "b", ["y"]⟩]) (resolvedParts [] [])) t
        = (["x"] : List String).count t
          + 2 * (([⟨"T", some "b", ["y"]⟩] : List RawEvent).map
              (fun ev => ev.tags.count t)).sum
          + 2 * ((resolvedParts [] []).map (fun ev => ev.tags.count t)).sum)
    ∧ (∃ ranked : List (String × Nat),
        List.Perm ranked (catPhase (catPhase (seedWeights [] ["a"] 1)
          [⟨"T", some "b", ["y"]⟩]) (resolvedParts [] []))
        ∧ ranked.Pairwise (fun a b => b.2 ≤ a.2)
        ∧ (∀ w : Nat, ranked.filter (fun kv => kv.2 = w)
            = (catPhase (catPhase (seedWeights [] ["a"] 1)
                [⟨"T", some "b", ["y"]⟩]) (resolvedParts [] [])).filter
                (fun kv => kv.2 = w))
        ∧ (build_user_profile ["a"] ["x"] [⟨"T", some "b", ["y"]⟩]
            [] []).favorite_categories = (ranked.take 3).map Prod.fst)
    ∧ (∃ ranked : List (String × Nat),
        List.Perm ranked (tagPhase (tagPhase (seedWeights [] ["x"] 1)
          [⟨"T", some "b", ["y"]⟩]) (resolvedParts [] []))
        ∧ ranked.Pairwise (fun a b => b.2 ≤ a.2)
        ∧ (∀ w : Nat, ranked.filter (fun kv => kv.2 = w)
            = (tagPhase (tagPhase (seedWeights [] ["x"] 1)
                [⟨"T", some "b", ["y"]⟩]) (resolvedParts [] [])).filter
                (fun kv => kv.2 = w))
        ∧ (build_user_profile ["a"] ["x"] [⟨"T", some "b", ["y"]⟩]
            [] []).favorite_tags = (ranked.take 5).map Prod.fst) :=
  claim_C7_amended_weighted_ranking ["a"] ["x"] [⟨"T", some "b", ["y"]⟩] [] []
    (Or.inl (by decide)) (by decide) (by decide)

end GCventease



